import Mathlib

/-
  Verification of the random-walk simulator of
  Parallelization/Random_Walk_Simulator-Vectorization.ipynb.

  The notebook is a fill-in-the-blank lesson: every simulator function
  (convert_value, single_update, single_trajectory,
  vectorized_convert_value, vectorized_single_trajectory,
  multiple_trajectories) has only its docstring in the source, while
  check_vec has a complete body.  The missing bodies are modelled here
  from the accompanying specification; check_vec is translated from its
  actual source code.

  Machine reals are modelled by the rationals, numpy lists and arrays by
  Lean lists, and the implicit global numpy random generator by an
  explicit RNGState value threaded through every engine as its leading
  argument.
-/

namespace RandomWalk

/-- Modulus of the linear congruential stream used to model the external
seeded pseudo-random source (numpy does not belong to this repository). -/
def lcgM : ℕ := 2147483648

/-- Multiplier of the linear congruential stream. -/
def lcgA : ℕ := 1103515245

/-- Increment of the linear congruential stream. -/
def lcgC : ℕ := 12345

/-- Modelled from the spec: the deterministic RNG source is an external
capability (section 6 of the spec: seed, drawBernoulli, drawBernoulliBatch),
not implemented in the repository.  We realize it as a linear congruential
stream: lcgState seed n is the n-th internal state of the generator seeded
with seed. -/
def lcgState (seed : Int) : ℕ → ℕ
  | 0 => seed.natAbs % lcgM
  | n + 1 => (lcgA * lcgState seed n + lcgC) % lcgM

/-- Modelled from the spec: the i-th uniform variate in [0,1) drawn from the
stream of a given seed.  Same seed always yields the same sequence, which is
the seeding contract of section 4.4 of the spec. -/
def uniform (seed : Int) (i : ℕ) : ℚ := (lcgState seed (i + 1) : ℚ) / (lcgM : ℚ)

/-- Modelled from the spec: a Bernoulli(p) draw in \x7b0,1\x7d, obtained by
thresholding the i-th uniform variate, as binomial(1, p) samplers do.  With
p = 0 the draw is always 0 and with p = 1 always 1, matching the boundary
behavior required by section 8 of the spec. -/
def bernoulliDraw (p : ℚ) (seed : Int) (i : ℕ) : ℚ :=
  if uniform seed i < p then 1 else 0

/-- State of the process-wide numpy random generator: the seed of the
current stream together with the number of variates already consumed. -/
structure RNGState where
  seed : Int
  pos : ℕ
deriving DecidableEq, Repr

/-- Modelled from the spec: np.random.seed resets the global generator
to the beginning of the stream of the given seed, discarding prior state. -/
def np_random_seed (s : Int) (_st : RNGState) : RNGState := ⟨s, 0⟩

/-- Modelled from the spec: a single scalar np.random.binomial(1, p) call,
returning one draw in \x7b0,1\x7d and advancing the stream by one. -/
def np_random_binomial1 (p : ℚ) (st : RNGState) : ℚ × RNGState :=
  (bernoulliDraw p st.seed st.pos, ⟨st.seed, st.pos + 1⟩)

/-- Modelled from the spec: np.random.binomial(1, p, size=k), returning k
draws taken from the stream in order and advancing the stream by k; a batch
draw consumes the stream exactly as k successive scalar draws would
(seeding contract, section 4.4 of the spec). -/
def np_random_binomial_batch (p : ℚ) (k : ℕ) (st : RNGState) : List ℚ × RNGState :=
  ((List.range k).map fun i => bernoulliDraw p st.seed (st.pos + i),
    ⟨st.seed, st.pos + k⟩)

/-- Modelled from the spec: np.random.binomial(1, p, size=(N, T)), an N by T
table of draws filled in row-major order from the stream (canonical draw
order of section 4.4 of the spec: all T draws of row 0, then row 1, ...),
advancing the stream by N * T. -/
def np_random_binomial_matrix (p : ℚ) (N T : ℕ) (st : RNGState) :
    List (List ℚ) × RNGState :=
  ((List.range N).map fun j => (List.range T).map fun i =>
      bernoulliDraw p st.seed (st.pos + j * T + i),
    ⟨st.seed, st.pos + N * T⟩)

/-- Modelled from the spec: convert_value maps a binary value to 1 or -1
under the mapping x -> x - 1 + max(0, x), as stated in the docstring of
cell 5 of the notebook (the body is blank in the source). -/
def convert_value (value : ℚ) : ℚ := value - 1 + max 0 value

/-- Modelled from the spec: vectorized_convert_value applies the same
mapping x -> x - 1 + max(0, x) element-wise across an array, written as the
numpy broadcast of the arithmetic: element-wise maximum with 0, then the
broadcast subtraction and addition (docstring of cell 13; the body is blank
in the source). -/
def vectorized_convert_value (values : List ℚ) : List ℚ :=
  List.zipWith (fun v m => v - 1 + m) values (values.map fun v => max 0 v)

/-- Modelled from the spec: single_update draws one binomial variable from
the global generator and converts it to a step (docstring of cell 6; the
body is blank in the source). -/
def single_update (p : ℚ) (st : RNGState) : ℚ × RNGState :=
  let res := np_random_binomial1 p st
  (convert_value res.1, res.2)

/-- Modelled from the spec: the walk loop of single_trajectory.  For k
remaining timesteps, starting from displacement x, it draws a step, adds it
to the running displacement and appends the running total (not the raw
step) to the output list, per section 4.2 of the spec. -/
def walkLoop (p : ℚ) : ℕ → ℚ → RNGState → List ℚ × RNGState
  | 0, _x, st => ([], st)
  | k + 1, x, st =>
    let res := single_update p st
    let x2 := x + res.1
    let rest := walkLoop p k x2 res.2
    (x2 :: rest.1, rest.2)

/-- Modelled from the spec: single_trajectory(p, T, Seed) seeds the global
generator with Seed, then executes the walk for T timesteps with a for
loop, returning the T displacements (docstring of cell 7; the body is blank
in the source).  The leading argument is the implicit global RNG state. -/
def single_trajectory (st : RNGState) (p : ℚ) (T : ℕ) (Seed : Int) :
    List ℚ × RNGState :=
  walkLoop p T 0 (np_random_seed Seed st)

/-- Cumulative sums of a list continuing from a running total acc: the
model of np.cumsum along one row. -/
def cumsumFrom (acc : ℚ) : List ℚ → List ℚ
  | [] => []
  | x :: xs => (acc + x) :: cumsumFrom (acc + x) xs

/-- Model of np.cumsum on a one-dimensional array. -/
def cumsum (xs : List ℚ) : List ℚ := cumsumFrom 0 xs

/-- Modelled from the spec: vectorized_single_trajectory(p, T, Seed) seeds
the global generator, draws all T binomial variables in one batch call,
converts them to steps in one element-wise pass, and takes the cumulative
sum (docstring of cell 17; the body is blank in the source). -/
def vectorized_single_trajectory (st : RNGState) (p : ℚ) (T : ℕ) (Seed : Int) :
    List ℚ × RNGState :=
  let st1 := np_random_seed Seed st
  let res := np_random_binomial_batch p T st1
  (cumsum (vectorized_convert_value res.1), res.2)

/-- Modelled from the spec: the final multiple_trajectories(p, T,
numTrajectories, startSeed=0) of cell 28 seeds the global generator with
startSeed (optional, default 0), draws a (numTrajectories, T) table of
binomial variables in one call, converts them element-wise, and takes the
cumulative sum along each row (axis 1); the body is blank in the source.
The leading argument is the implicit global RNG state. -/
def multiple_trajectories (st : RNGState) (p : ℚ) (T numTrajectories : ℕ)
    (startSeed : optParam Int 0) : List (List ℚ) × RNGState :=
  let st1 := np_random_seed startSeed st
  let res := np_random_binomial_matrix p numTrajectories T st1
  (res.1.map fun row => cumsum (vectorized_convert_value row), res.2)

/-- Model of np.isclose(x, 0) with the default tolerances: the relative
term rtol * abs(0) vanishes, leaving abs(x) <= atol = 1e-8. -/
def isclose0 (x : ℚ) : Bool := decide (|x| ≤ 1 / 100000000)

/-- Translation of check_vec(p, T, Seed) from cell 19, the one function
whose body is present in the source: it computes the element-wise
difference of the vectorized and the scalar trajectory (calling the
vectorized engine first, as the source does), and asserts that every
difference is close to 0, failing with the message of the source assert
otherwise.  The assert is modelled as an Except value. -/
def check_vec (st : RNGState) (p : ℚ) (T : ℕ) (Seed : Int) :
    Except String Unit × RNGState :=
  let resv := vectorized_single_trajectory st p T Seed
  let ress := single_trajectory resv.2 p T Seed
  let difference := List.zipWith (fun a b => a - b) resv.1 ress.1
  if difference.all isclose0 then (Except.ok (), ress.2)
  else (Except.error "Vectorization failed", ress.2)

/-- Every internal state of the linear congruential stream is below the
modulus. -/
theorem lcgState_lt (seed : Int) : ∀ n, lcgState seed n < lcgM := by
  intro n
  cases n with
  | zero => exact Nat.mod_lt _ (by decide)
  | succ n => exact Nat.mod_lt _ (by decide)

/-- Uniform variates are nonnegative. -/
theorem uniform_nonneg (seed : Int) (i : ℕ) : 0 ≤ uniform seed i := by
  unfold uniform
  positivity

/-- Uniform variates are below 1. -/
theorem uniform_lt_one (seed : Int) (i : ℕ) : uniform seed i < 1 := by
  unfold uniform
  rw [div_lt_one (by norm_num [lcgM])]
  exact_mod_cast lcgState_lt seed (i + 1)

/-- A Bernoulli draw is 0 or 1. -/
theorem bernoulliDraw_mem (p : ℚ) (seed : Int) (i : ℕ) :
    bernoulliDraw p seed i = 0 ∨ bernoulliDraw p seed i = 1 := by
  unfold bernoulliDraw
  split
  · exact Or.inr rfl
  · exact Or.inl rfl

/-- With bias 0 every draw is 0. -/
theorem bernoulliDraw_zero (seed : Int) (i : ℕ) : bernoulliDraw 0 seed i = 0 := by
  unfold bernoulliDraw
  rw [if_neg]
  exact not_lt.mpr (uniform_nonneg seed i)

/-- With bias 1 every draw is 1. -/
theorem bernoulliDraw_one (seed : Int) (i : ℕ) : bernoulliDraw 1 seed i = 1 := by
  unfold bernoulliDraw
  rw [if_pos (uniform_lt_one seed i)]

/-- Converting a Bernoulli draw yields a step in \x7b-1, 1\x7d. -/
theorem convert_bernoulliDraw_mem (p : ℚ) (seed : Int) (i : ℕ) :
    convert_value (bernoulliDraw p seed i) = -1 ∨
      convert_value (bernoulliDraw p seed i) = 1 := by
  rcases bernoulliDraw_mem p seed i with h | h <;> rw [h] <;> norm_num [convert_value]

/-- The broadcast encoder agrees with mapping the scalar encoder over the
list, on every list. -/
theorem vectorized_convert_value_eq_map (xs : List ℚ) :
    vectorized_convert_value xs = xs.map convert_value := by
  induction xs with
  | nil => rfl
  | cons y ys ih =>
    simp only [vectorized_convert_value, List.map_cons, List.zipWith_cons_cons] at *
    exact congrArg _ ih

/-- Cumulative sums preserve length. -/
theorem cumsumFrom_length (a : ℚ) (xs : List ℚ) :
    (cumsumFrom a xs).length = xs.length := by
  induction xs generalizing a with
  | nil => rfl
  | cons y ys ih => simp [cumsumFrom, ih]

/-- Element t of a cumulative sum started at a is a plus the sum of the
first t + 1 inputs. -/
theorem cumsumFrom_getElem? (xs : List ℚ) : ∀ (a : ℚ) (t : ℕ), t < xs.length →
    (cumsumFrom a xs)[t]? = some (a + (xs.take (t + 1)).sum) := by
  induction xs with
  | nil => intro a t ht; simp at ht
  | cons y ys ih =>
    intro a t ht
    cases t with
    | zero => simp [cumsumFrom]
    | succ t =>
      have ht2 : t < ys.length := by simpa using ht
      simp only [cumsumFrom, List.getElem?_cons_succ, ih (a + y) t ht2,
        List.take_succ_cons, List.sum_cons]
      rw [add_assoc]

/-- Closed form of the scalar walk loop: starting at displacement x with
the stream at position i, it returns the cumulative sums of the next k
converted draws and leaves the stream at position i + k. -/
theorem walkLoop_eq (p : ℚ) (k : ℕ) : ∀ (x : ℚ) (s : Int) (i : ℕ),
    walkLoop p k x ⟨s, i⟩ =
      (cumsumFrom x ((List.range k).map fun j =>
        convert_value (bernoulliDraw p s (i + j))), ⟨s, i + k⟩) := by
  induction k with
  | zero => intro x s i; simp [walkLoop, cumsumFrom]
  | succ k ih =>
    intro x s i
    have hj : ∀ j : ℕ, i + 1 + j = i + (j + 1) := by omega
    simp only [walkLoop, single_update, np_random_binomial1, ih,
      List.range_succ_eq_map, List.map_cons, List.map_map, cumsumFrom]
    refine Prod.ext ?_ ?_
    · simp only [Function.comp, add_zero]
      exact congrArg _ (congrArg _ (by simp [hj]))
    · simp [hj k]

/-- Closed form of the scalar engine: it ignores the incoming state, uses
the stream of Seed from position 0, and consumes exactly T draws. -/
theorem single_trajectory_eq (st : RNGState) (p : ℚ) (T : ℕ) (Seed : Int) :
    single_trajectory st p T Seed =
      (cumsumFrom 0 ((List.range T).map fun j =>
        convert_value (bernoulliDraw p Seed j)), ⟨Seed, T⟩) := by
  unfold single_trajectory np_random_seed
  rw [walkLoop_eq]
  simp

/-- Closed form of the row-vectorized engine: the same list as the scalar
closed form. -/
theorem vectorized_single_trajectory_eq (st : RNGState) (p : ℚ) (T : ℕ) (Seed : Int) :
    vectorized_single_trajectory st p T Seed =
      (cumsumFrom 0 ((List.range T).map fun j =>
        convert_value (bernoulliDraw p Seed j)), ⟨Seed, T⟩) := by
  unfold vectorized_single_trajectory np_random_seed np_random_binomial_batch cumsum
  simp only [vectorized_convert_value_eq_map, List.map_map, zero_add]
  rfl

/-- The scalar and the row-vectorized engine agree, for any pair of
incoming states and all parameters. -/
theorem traj_eq (st st2 : RNGState) (p : ℚ) (T : ℕ) (Seed : Int) :
    (single_trajectory st p T Seed).1 = (vectorized_single_trajectory st2 p T Seed).1 := by
  rw [single_trajectory_eq, vectorized_single_trajectory_eq]

/-- The scalar engine returns a list of length T. -/
theorem single_trajectory_length (st : RNGState) (p : ℚ) (T : ℕ) (Seed : Int) :
    (single_trajectory st p T Seed).1.length = T := by
  rw [single_trajectory_eq]
  simp [cumsumFrom_length]

/-- The row-vectorized engine returns a list of length T. -/
theorem vectorized_single_trajectory_length (st : RNGState) (p : ℚ) (T : ℕ) (Seed : Int) :
    (vectorized_single_trajectory st p T Seed).1.length = T := by
  rw [vectorized_single_trajectory_eq]
  simp [cumsumFrom_length]

/-- Element t of the cumulative sum of a constant list of length T is
(t + 1) times the constant. -/
theorem cumsumFrom_const_getElem? (c : ℚ) (T t : ℕ) (ht : t < T) :
    (cumsumFrom 0 ((List.range T).map fun _ => c))[t]? = some ((t + 1 : ℕ) * c) := by
  rw [cumsumFrom_getElem? _ 0 t (by simpa using ht)]
  rw [List.map_const', List.length_range, List.take_replicate,
    Nat.min_eq_left (by omega), List.sum_replicate, nsmul_eq_mul, zero_add]

/-- C1: for every valid bias p in [0,1], positive step count T and integer
seed, the scalar engine and the row-vectorized engine produce identical
trajectories element-wise, from any global RNG state. -/
theorem C1_scalar_matches_vectorized (st : RNGState) (p : ℚ) (T : ℕ) (Seed : Int)
    (hp0 : 0 ≤ p) (hp1 : p ≤ 1) (hT : 1 ≤ T) :
    (single_trajectory st p T Seed).1 = (vectorized_single_trajectory st p T Seed).1 :=
  traj_eq st st p T Seed

/-- Witness for C1 at p = 1/2, T = 4, Seed = 11. -/
theorem C1_witness :
    (single_trajectory ⟨0, 0⟩ (1/2) 4 11).1 =
      (vectorized_single_trajectory ⟨0, 0⟩ (1/2) 4 11).1 :=
  C1_scalar_matches_vectorized ⟨0, 0⟩ (1/2) 4 11 (by norm_num) (by norm_num)
    (by norm_num)

/-- C2: for every valid (p, T, N, seed), the batch engine returns exactly N
rows; every row has exactly T columns and is the cumulative sum of a
sequence of T steps in \x7b-1, 1\x7d, with the element at 0-based index t
equal to the sum of the first t + 1 steps. -/
theorem C2_batch_rows_are_cumulative_sums (st : RNGState) (p : ℚ) (T N : ℕ)
    (Seed : Int) (hp0 : 0 ≤ p) (hp1 : p ≤ 1) (hT : 1 ≤ T) (hN : 1 ≤ N) :
    ((multiple_trajectories st p T N Seed).1).length = N ∧
    ∀ row ∈ (multiple_trajectories st p T N Seed).1,
      row.length = T ∧
      ∃ steps : List ℚ, steps.length = T ∧ (∀ d ∈ steps, d = -1 ∨ d = 1) ∧
        row = cumsum steps ∧
        ∀ t, t < T → row[t]? = some ((steps.take (t + 1)).sum) := by
  constructor
  · simp [multiple_trajectories, np_random_binomial_matrix]
  · intro row hrow
    simp only [multiple_trajectories, np_random_binomial_matrix, np_random_seed,
      List.map_map, List.mem_map, List.mem_range, Function.comp] at hrow
    obtain ⟨j, hj, hrowj⟩ := hrow
    rw [vectorized_convert_value_eq_map] at hrowj
    refine ⟨?_, ((List.range T).map fun i =>
        bernoulliDraw p Seed (0 + j * T + i)).map convert_value, ?_, ?_, ?_, ?_⟩
    · rw [← hrowj]
      simp [cumsum, cumsumFrom_length]
    · simp
    · intro d hd
      simp only [List.map_map, List.mem_map, List.mem_range, Function.comp] at hd
      obtain ⟨i, hi, hdi⟩ := hd
      rw [← hdi]
      exact convert_bernoulliDraw_mem p Seed (0 + j * T + i)
    · rw [← hrowj]
    · intro t ht
      rw [← hrowj]
      unfold cumsum
      rw [cumsumFrom_getElem? _ 0 t (by simpa using ht), zero_add]

/-- Witness for C2 at p = 1/2, T = 3, N = 2, Seed = 5. -/
theorem C2_witness :
    ((multiple_trajectories ⟨0, 0⟩ (1/2) 3 2 5).1).length = 2 ∧
    ∀ row ∈ (multiple_trajectories ⟨0, 0⟩ (1/2) 3 2 5).1,
      row.length = 3 ∧
      ∃ steps : List ℚ, steps.length = 3 ∧ (∀ d ∈ steps, d = -1 ∨ d = 1) ∧
        row = cumsum steps ∧
        ∀ t, t < 3 → row[t]? = some ((steps.take (t + 1)).sum) :=
  C2_batch_rows_are_cumulative_sums ⟨0, 0⟩ (1/2) 3 2 5 (by norm_num) (by norm_num)
    (by norm_num) (by norm_num)

/-- C3: for every valid (p, T, seed), running the batch engine with a
single trajectory and taking its only row gives exactly the output of the
row-vectorized engine. -/
theorem C3_batch_one_row_matches_vectorized (st : RNGState) (p : ℚ) (T : ℕ)
    (Seed : Int) (hp0 : 0 ≤ p) (hp1 : p ≤ 1) (hT : 1 ≤ T) :
    ((multiple_trajectories st p T 1 Seed).1)[0]? =
      some ((vectorized_single_trajectory st p T Seed).1) := by
  rw [vectorized_single_trajectory_eq]
  simp only [multiple_trajectories, np_random_binomial_matrix, np_random_seed,
    List.map_map]
  simp only [List.range_succ, List.range_zero, List.nil_append, List.map_cons,
    List.map_nil, List.getElem?_cons_zero, Function.comp, zero_mul, zero_add,
    vectorized_convert_value_eq_map, List.map_map, cumsum]
  rfl

/-- Witness for C3 at p = 1/3, T = 4, Seed = 6. -/
theorem C3_witness :
    ((multiple_trajectories ⟨0, 0⟩ (1/3) 4 1 6).1)[0]? =
      some ((vectorized_single_trajectory ⟨0, 0⟩ (1/3) 4 6).1) :=
  C3_batch_one_row_matches_vectorized ⟨0, 0⟩ (1/3) 4 6 (by norm_num) (by norm_num)
    (by norm_num)

/-- C4: the step encoder returns -1 on 0 and 1 on 1, is computed as the
affine map value - 1 + max(0, value), and coincides with 2 * value - 1 on
the domain \x7b0, 1\x7d. -/
theorem C4_convert_value_contract :
    convert_value 0 = -1 ∧ convert_value 1 = 1 ∧
    (∀ v : ℚ, convert_value v = v - 1 + max 0 v) ∧
    (∀ v : ℚ, v = 0 ∨ v = 1 → convert_value v = 2 * v - 1) := by
  refine ⟨by norm_num [convert_value], by norm_num [convert_value],
    fun v => rfl, ?_⟩
  rintro v (rfl | rfl) <;> norm_num [convert_value]

/-- Witness for C4 at value 1. -/
theorem C4_witness : convert_value 1 = 2 * 1 - 1 :=
  C4_convert_value_contract.2.2.2 1 (Or.inr rfl)

/-- C5: for every array of values drawn from \x7b0, 1\x7d, the broadcast
encoder applied to the whole array equals mapping the scalar encoder over
each element. -/
theorem C5_broadcast_matches_scalar_map (values : List ℚ)
    (hv : ∀ v ∈ values, v = 0 ∨ v = 1) :
    vectorized_convert_value values = values.map convert_value :=
  vectorized_convert_value_eq_map values

/-- Witness for C5 on the array [0, 1, 1]. -/
theorem C5_witness :
    vectorized_convert_value [0, 1, 1] = [0, 1, 1].map convert_value :=
  C5_broadcast_matches_scalar_map [0, 1, 1] (by decide)

/-- C6: at the boundary biases the walk is deterministic regardless of the
seed: with p = 0 position t (0-based) is -(t + 1), with p = 1 it is t + 1;
in particular the two concrete trajectories of the claim hold. -/
theorem C6_boundary_trajectories :
    ((single_trajectory ⟨0, 0⟩ 1 5 42).1 = [1, 2, 3, 4, 5] ∧
     (single_trajectory ⟨0, 0⟩ 0 5 42).1 = [-1, -2, -3, -4, -5]) ∧
    ∀ (st : RNGState) (T : ℕ) (Seed : Int) (t : ℕ), t < T →
      ((single_trajectory st 0 T Seed).1)[t]? = some (-(t + 1 : ℚ)) ∧
      ((single_trajectory st 1 T Seed).1)[t]? = some ((t + 1 : ℚ)) := by
  have hdown : ∀ (T : ℕ) (Seed : Int),
      ((List.range T).map fun j => convert_value (bernoulliDraw 0 Seed j)) =
        (List.range T).map fun _ => (-1 : ℚ) := fun T Seed =>
    List.map_congr_left fun j _ => by rw [bernoulliDraw_zero]; norm_num [convert_value]
  have hup : ∀ (T : ℕ) (Seed : Int),
      ((List.range T).map fun j => convert_value (bernoulliDraw 1 Seed j)) =
        (List.range T).map fun _ => (1 : ℚ) := fun T Seed =>
    List.map_congr_left fun j _ => by rw [bernoulliDraw_one]; norm_num [convert_value]
  refine ⟨⟨?_, ?_⟩, ?_⟩
  · rw [single_trajectory_eq]
    simp only [hup 5 42]
    norm_num [List.range_succ, cumsumFrom]
  · rw [single_trajectory_eq]
    simp only [hdown 5 42]
    norm_num [List.range_succ, cumsumFrom]
  · intro st T Seed t ht
    constructor
    · rw [single_trajectory_eq]
      rw [hdown T Seed, cumsumFrom_const_getElem? (-1) T t ht]
      congr 1
      push_cast
      ring
    · rw [single_trajectory_eq]
      rw [hup T Seed, cumsumFrom_const_getElem? 1 T t ht]
      congr 1
      push_cast
      ring

/-- Witness for C6: the general boundary law applied at T = 3, Seed = 7,
t = 1. -/
theorem C6_witness :
    ((single_trajectory ⟨0, 0⟩ 0 3 7).1)[1]? = some (-((1 : ℕ) + 1 : ℚ)) ∧
    ((single_trajectory ⟨0, 0⟩ 1 3 7).1)[1]? = some (((1 : ℕ) + 1 : ℚ)) :=
  C6_boundary_trajectories.2 ⟨0, 0⟩ 3 7 1 (by norm_num)

/-- With bias at least 1 every draw is 1 (no bias validation happens in
the sampler). -/
theorem bernoulliDraw_of_one_le (p : ℚ) (h : 1 ≤ p) (seed : Int) (i : ℕ) :
    bernoulliDraw p seed i = 1 :=
  if_pos (lt_of_lt_of_le (uniform_lt_one seed i) h)

/-- C7: the consistency checker fails with the ConsistencyError of the
spec (the assert message Vectorization failed of the source) exactly when
some element-wise difference of the two trajectories exceeds the numerical
tolerance of np.isclose against 0, and returns normally exactly when every
difference is within tolerance. -/
theorem C7_checker_iff (st : RNGState) (p : ℚ) (T : ℕ) (Seed : Int) :
    ((check_vec st p T Seed).1 = Except.error "Vectorization failed" ↔
      ∃ d ∈ List.zipWith (fun a b => a - b)
          (vectorized_single_trajectory st p T Seed).1
          (single_trajectory st p T Seed).1, 1 / 100000000 < |d|) ∧
    ((check_vec st p T Seed).1 = Except.ok () ↔
      ∀ d ∈ List.zipWith (fun a b => a - b)
          (vectorized_single_trajectory st p T Seed).1
          (single_trajectory st p T Seed).1, |d| ≤ 1 / 100000000) := by
  have hs : ∀ st2 : RNGState, (single_trajectory st2 p T Seed).1 =
      (single_trajectory st p T Seed).1 := fun st2 => by
    rw [single_trajectory_eq, single_trajectory_eq]
  unfold check_vec
  simp only [hs]
  by_cases h : (List.zipWith (fun a b => a - b)
      (vectorized_single_trajectory st p T Seed).1
      (single_trajectory st p T Seed).1).all isclose0 = true
  · have hAll : ∀ d ∈ List.zipWith (fun a b => a - b)
        (vectorized_single_trajectory st p T Seed).1
        (single_trajectory st p T Seed).1, |d| ≤ 1 / 100000000 := by
      simpa [List.all_eq_true, isclose0] using h
    rw [if_pos h]
    constructor
    · constructor
      · intro habs
        simp at habs
      · intro hex
        obtain ⟨d, hd, hlt⟩ := hex
        exact absurd (hAll d hd) (not_le.mpr hlt)
    · exact ⟨fun _ => hAll, fun _ => rfl⟩
  · have h2 : ¬ ∀ d ∈ List.zipWith (fun a b => a - b)
        (vectorized_single_trajectory st p T Seed).1
        (single_trajectory st p T Seed).1, |d| ≤ 1 / 100000000 := fun hAll =>
      h (by simpa [List.all_eq_true, isclose0] using hAll)
    push_neg at h2
    rw [if_neg h]
    constructor
    · exact ⟨fun _ => h2, fun _ => rfl⟩
    · constructor
      · intro habs
        simp at habs
      · intro hAll
        exact absurd (by simpa [List.all_eq_true, isclose0] using hAll :
          (List.zipWith (fun a b => a - b)
            (vectorized_single_trajectory st p T Seed).1
            (single_trajectory st p T Seed).1).all isclose0 = true) h

/-- Witness for C7: the checker contract instantiated at p = 1/2, T = 2,
Seed = 9. -/
theorem C7_witness :
    ((check_vec ⟨0, 0⟩ (1/2) 2 9).1 = Except.error "Vectorization failed" ↔
      ∃ d ∈ List.zipWith (fun a b => a - b)
          (vectorized_single_trajectory ⟨0, 0⟩ (1/2) 2 9).1
          (single_trajectory ⟨0, 0⟩ (1/2) 2 9).1, 1 / 100000000 < |d|) ∧
    ((check_vec ⟨0, 0⟩ (1/2) 2 9).1 = Except.ok () ↔
      ∀ d ∈ List.zipWith (fun a b => a - b)
          (vectorized_single_trajectory ⟨0, 0⟩ (1/2) 2 9).1
          (single_trajectory ⟨0, 0⟩ (1/2) 2 9).1, |d| ≤ 1 / 100000000) :=
  C7_checker_iff ⟨0, 0⟩ (1/2) 2 9

/-- C8 counterexample: at the invalid bias p = 2 (outside [0,1]), the
scalar engine does not fail with a DomainError: it returns an ordinary
trajectory and the generator has consumed 3 draws, so RNG draws did occur
and work was done. -/
theorem C8_counterexample :
    ¬ ((2 : ℚ) ≤ 1) ∧
    (single_trajectory ⟨0, 0⟩ 2 3 7).1 = [1, 2, 3] ∧
    (single_trajectory ⟨0, 0⟩ 2 3 7).2 = ⟨7, 3⟩ := by
  have h1 : ((List.range 3).map fun j => convert_value (bernoulliDraw 2 7 j)) =
      (List.range 3).map fun _ => (1 : ℚ) :=
    List.map_congr_left fun j _ => by
      rw [bernoulliDraw_of_one_le 2 (by norm_num) 7 j]
      norm_num [convert_value]
  refine ⟨by norm_num, ?_, ?_⟩
  · rw [single_trajectory_eq]
    simp only [h1]
    norm_num [List.range_succ, cumsumFrom]
  · rw [single_trajectory_eq]

/-- C8 amended: the engines perform no parameter validation at all: for
every p, T, N and seed, valid or not, they return a full-shape result and
consume the corresponding number of RNG draws, never raising a
DomainError. -/
theorem C8_amended_no_validation (st : RNGState) (p : ℚ) (T N : ℕ) (Seed : Int) :
    (single_trajectory st p T Seed).1.length = T ∧
    (single_trajectory st p T Seed).2 = ⟨Seed, T⟩ ∧
    ((multiple_trajectories st p T N Seed).1).length = N ∧
    (multiple_trajectories st p T N Seed).2 = ⟨Seed, N * T⟩ := by
  refine ⟨single_trajectory_length st p T Seed, ?_, ?_, ?_⟩
  · rw [single_trajectory_eq]
  · simp [multiple_trajectories, np_random_binomial_matrix]
  · simp [multiple_trajectories, np_random_binomial_matrix, np_random_seed]

/-- C9: every engine is deterministic in (p, T, N, seed): the trajectory
output is independent of the incoming global RNG state, because the seed
is explicitly reset at the start of each invocation. -/
theorem C9_engines_deterministic (st1 st2 : RNGState) (p : ℚ) (T N : ℕ) (Seed : Int) :
    (single_trajectory st1 p T Seed).1 = (single_trajectory st2 p T Seed).1 ∧
    (vectorized_single_trajectory st1 p T Seed).1 =
      (vectorized_single_trajectory st2 p T Seed).1 ∧
    (multiple_trajectories st1 p T N Seed).1 =
      (multiple_trajectories st2 p T N Seed).1 :=
  ⟨rfl, rfl, rfl⟩

/-- C10: the startSeed parameter of the batch engine is optional with
default 0: a call omitting it returns exactly the same table as the call
with seed 0 given explicitly. -/
theorem C10_default_seed_is_zero (st : RNGState) (p : ℚ) (T N : ℕ) :
    (multiple_trajectories st p T N).1 = (multiple_trajectories st p T N 0).1 :=
  rfl

end RandomWalk
